import Mathlib

/-!
Verification development for the Huron BigTIFF vendor driver
(`src/openslide-vendor-huron.c`).

The driver is embedded shallowly:

* a TIFF directory is a record of the tag reads the driver performs
  (`TIFFGetField` returning false is modelled by `Option.none`);
* host collaborators (`TIFFIsCODECConfigured`, the tifflike readers,
  `_openslide_tifflike_init_properties_and_hash`, the tiff cache) are
  parameters of the embedded functions;
* heap traffic that matters to the failure-cleanup claims
  (`g_slice_new0` / `g_slice_free` of `struct level`, creation and
  destruction of the `_openslide_tiffcache`) is recorded as an event
  trace, one event per allocation or release in the C source;
* the out-of-bounds read `level_array->pdata[level_array->len - 1]`
  that the C code performs when the traversal accumulated zero levels
  is modelled by the distinguished outcome `OpenResult.crash`
  (undefined behavior, neither success nor an error return).
-/

namespace Huron

/-- TIFF tag numbers used by the driver (from `tiff.h`). -/
def TIFFTAG_SUBFILETYPE : Nat := 254

def TIFFTAG_IMAGEWIDTH : Nat := 256

def TIFFTAG_IMAGELENGTH : Nat := 257

def TIFFTAG_COMPRESSION : Nat := 259

def TIFFTAG_IMAGEDESCRIPTION : Nat := 270

def TIFFTAG_ROWSPERSTRIP : Nat := 278

def TIFFTAG_XRESOLUTION : Nat := 282

def TIFFTAG_RESOLUTIONUNIT : Nat := 296

/-- Resolution-unit codes (from `tiff.h`). -/
def RESUNIT_INCH : Nat := 2

def RESUNIT_CENTIMETER : Nat := 3

/-- `static const char LABEL_DESCRIPTION[] = "label";` -/
def LABEL_DESCRIPTION : String := "label"

/-- `static const char MACRO_DESCRIPTION[] = "macro";` -/
def MACRO_DESCRIPTION : String := "macro"

/-- `static const char HURON_MAKER[] = "Huron";` -/
def HURON_MAKER : String := "Huron"

/-- `static const char HURON_MODEL[] = "LE";` -/
def HURON_MODEL : String := "LE"

/-- The geometry `_openslide_tiff_level_init` populates into a
`struct _openslide_tiff_level` (the driver sorts on `image_w`). -/
structure LevelGeom where
  image_w : Nat
  image_h : Nat
  tile_w : Nat
  tile_h : Nat
  tiles_across : Nat
  tiles_down : Nat
deriving DecidableEq, Repr

/-- One TIFF directory, as seen through the tag reads the driver makes.
A field of `Option.none` models `TIFFGetField` returning false for that
tag.  `levelInit` is the black-box outcome of `_openslide_tiff_level_init`
on this directory (`none` = the helper fails). -/
structure TiffDir where
  subfiletype : Option Nat
  tiled : Bool
  imageWidth : Option Nat
  imageLength : Option Nat
  rowsPerStrip : Option Nat
  imageDescription : Option String
  compression : Option Nat
  levelInit : Option LevelGeom
deriving DecidableEq, Repr

/-- `g_ascii_isspace`: space, \t, \n, \r, \v, \f. -/
def isGAsciiSpace (c : Char) : Bool :=
  c = ' ' || c = '\t' || c = '\n' || c = '\r' || c = Char.ofNat 11 || c = Char.ofNat 12

/-- `g_strstrip`: remove leading and trailing ASCII whitespace. -/
def g_strstrip (s : String) : String :=
  String.mk (((s.data.dropWhile isGAsciiSpace).reverse.dropWhile isGAsciiSpace).reverse)

/-- Character-list prefix test backing `g_str_has_prefix`. -/
def charsStartWith : List Char → List Char → Bool
  | _, [] => true
  | [], _ :: _ => false
  | c :: cs, p :: ps => c = p && charsStartWith cs ps

/-- `g_str_has_prefix s pre`: does `s` start with `pre`? -/
def strStartsWith (s pre : String) : Bool := charsStartWith s.data pre.data

/-- The distinct `goto FAIL` sites inside the directory loop of
`huron_open`. -/
inductive FailKind where
  | missingTag (tag : Nat)
  | badCompressionRead
  | unsupportedCompression (c : Nat)
  | levelInitFail
deriving DecidableEq, Repr

/-- What one iteration of the directory loop of `huron_open` decides for
the current directory. -/
inductive DirAction where
  | skip
  | assoc (name : String)
  | level (g : LevelGeom)
  | fail (k : FailKind)
deriving DecidableEq, Repr

/-- The body of the directory loop of `huron_open` (lines 275-360 of the
C source), as a pure classification of one directory.  `codecOk` is the
host predicate `TIFFIsCODECConfigured`; `dir` is `TIFFCurrentDirectory`.
Note the order of the gates in the source: the `TIFFTAG_SUBFILETYPE`
fetch comes first and `continue`s (skips) on failure, before
`TIFFIsTiled` is ever consulted. -/
def classifyDir (codecOk : Nat → Bool) (dir : Nat) (d : TiffDir) : DirAction :=
  match d.subfiletype with
  | none => DirAction.skip
  | some subfiletype =>
    if d.tiled = false then
      match d.imageWidth with
      | none => DirAction.fail (FailKind.missingTag TIFFTAG_IMAGEWIDTH)
      | some iw =>
        match d.imageLength with
        | none => DirAction.fail (FailKind.missingTag TIFFTAG_IMAGELENGTH)
        | some ih =>
          match d.rowsPerStrip with
          | none => DirAction.fail (FailKind.missingTag TIFFTAG_ROWSPERSTRIP)
          | some ir =>
            if ir ≠ 1 ∨ iw = 0 ∨ ih = 0 then DirAction.skip
            else
              match d.imageDescription with
              | none => DirAction.skip
              | some rawDesc =>
                let image_desc := g_strstrip rawDesc
                if dir = 1 ∧ subfiletype = 0 then DirAction.assoc "thumbnail"
                else if strStartsWith image_desc LABEL_DESCRIPTION then DirAction.assoc "label"
                else if strStartsWith image_desc MACRO_DESCRIPTION then DirAction.assoc "macro"
                else DirAction.skip
    else
      match d.compression with
      | none => DirAction.fail FailKind.badCompressionRead
      | some compression =>
        if codecOk compression = false then
          DirAction.fail (FailKind.unsupportedCompression compression)
        else
          match d.levelInit with
          | none => DirAction.fail FailKind.levelInitFail
          | some g => DirAction.level g

/-- Heap events observed while `huron_open` runs: allocation / release
of a `struct level` (together with its grid) and creation / destruction
of the `_openslide_tiffcache`. -/
inductive Event where
  | allocLevel
  | freeLevel
  | allocTc
  | freeTc
deriving DecidableEq, Repr

/-- Mutable state of the directory loop of `huron_open`: the
`level_array` contents (directory index and geometry, in accumulation
order), the associated images registered so far, and the heap events
emitted so far. -/
structure ScanState where
  levels : List (Nat × LevelGeom)
  assocs : List (String × Nat)
  events : List Event
deriving DecidableEq, Repr

/-- One iteration of the directory loop acting on the loop state.  The
`levelInitFail` case allocates the level struct and frees it again
before jumping to FAIL, exactly as lines 341-349 of the source do. -/
def stepDir (codecOk : Nat → Bool) (i : Nat) (d : TiffDir) (st : ScanState) :
    Except (FailKind × ScanState) ScanState :=
  match classifyDir codecOk i d with
  | DirAction.skip => Except.ok st
  | DirAction.assoc name => Except.ok { st with assocs := st.assocs ++ [(name, i)] }
  | DirAction.level g =>
      Except.ok { st with levels := st.levels ++ [(i, g)],
                          events := st.events ++ [Event.allocLevel] }
  | DirAction.fail FailKind.levelInitFail =>
      Except.error (FailKind.levelInitFail,
        { st with events := st.events ++ [Event.allocLevel, Event.freeLevel] })
  | DirAction.fail k => Except.error (k, st)

/-- The `do { ... } while (TIFFReadDirectory(tiff))` traversal: process
the directories in file order starting at index `i`. -/
def scanDirs (codecOk : Nat → Bool) : List TiffDir → Nat → ScanState →
    Except (FailKind × ScanState) ScanState
  | [], _, st => Except.ok st
  | d :: rest, i, st =>
    match stepDir codecOk i d st with
    | Except.error e => Except.error e
    | Except.ok st2 => scanDirs codecOk rest (i + 1) st2

/-- `width_compare`: the `GCompareFunc` handed to `g_ptr_array_sort`
(descending by `tiffl.image_w`). -/
def width_compare (a b : Nat × LevelGeom) : Int :=
  if b.2.image_w < a.2.image_w then -1
  else if a.2.image_w = b.2.image_w then 0
  else 1

/-- Insert one level into a list already ordered by `width_compare`. -/
def insertLevel (x : Nat × LevelGeom) : List (Nat × LevelGeom) → List (Nat × LevelGeom)
  | [] => [x]
  | y :: ys => if width_compare x y ≤ 0 then x :: y :: ys else y :: insertLevel x ys

/-- `g_ptr_array_sort(level_array, width_compare)`: a comparison sort
under `width_compare`.  `g_ptr_array_sort` is qsort-based and leaves the
relative order of equal keys unspecified; this insertion sort realises
one of the permitted outcomes. -/
def sortLevels : List (Nat × LevelGeom) → List (Nat × LevelGeom)
  | [] => []
  | x :: xs => insertLevel x (sortLevels xs)

/-- Reads of a tifflike value: `OPENSLIDE_ERROR_NO_VALUE`, some other
read error, or a value. -/
inductive TagRead (α : Type) where
  | noValue
  | readFail
  | val (a : α)
deriving DecidableEq, Repr

/-- The two tifflike tag reads `huron_set_resolution_prop` performs on
one directory.  The TIFF RATIONAL resolution is modelled as a rational
number. -/
structure TifflikeDir where
  resolutionUnit : TagRead Nat
  xResolution : TagRead Rat
deriving DecidableEq, Repr

/-- `huron_set_resolution_prop` (lines 226-249): resolve the resolution
unit (defaulting to inches when the tag has no value, aborting on any
other read error), then publish `10000.0 / res` if and only if the
X-resolution read succeeds and the unit is centimeters.  The return
value is the property published, if any. -/
def huron_set_resolution_prop (tl : Nat → TifflikeDir) (dir : Nat) : Option Rat :=
  match (tl dir).resolutionUnit with
  | TagRead.readFail => none
  | TagRead.noValue =>
      match (tl dir).xResolution with
      | TagRead.val res =>
          if RESUNIT_INCH = RESUNIT_CENTIMETER then some (10000 / res) else none
      | _ => none
  | TagRead.val unit =>
      match (tl dir).xResolution with
      | TagRead.val res =>
          if unit = RESUNIT_CENTIMETER then some (10000 / res) else none
      | _ => none

/-- `huron_set_props` (lines 251-258): publish the MPP-X property from
the given tifflike directory. -/
def huron_set_props (tl : Nat → TifflikeDir) (dir : Nat) : Option Rat :=
  huron_set_resolution_prop tl dir

/-- The image object a successful `huron_open` leaves behind: the sorted
level list, the associated images registered during the scan, the
directory handed to `_openslide_tifflike_init_properties_and_hash`, and
the MPP property published by `huron_set_props`. -/
structure OpenOk where
  levels : List (Nat × LevelGeom)
  assocs : List (String × Nat)
  hashDir : Nat
  mpp : Option Rat
deriving DecidableEq, Repr

/-- The error returns of `huron_open`. -/
inductive OpenErr where
  | tiffOpenFail
  | scanFail (k : FailKind)
  | hashFail
deriving DecidableEq, Repr

/-- Outcome of `huron_open`.  `crash` is the undefined behavior of
reading `level_array->pdata[level_array->len - 1]` when the array is
empty: the function neither returns an error nor a well-defined image
object. -/
inductive OpenResult where
  | ok (r : OpenOk)
  | err (e : OpenErr)
  | crash
deriving DecidableEq, Repr

/-- The FAIL block of `huron_open` (lines 400-413): free every level
still in `level_array`, then put the TIFF handle back and destroy the
tiffcache. -/
def failCleanup (st : ScanState) : List Event :=
  st.events ++ List.replicate st.levels.length Event.freeLevel ++ [Event.freeTc]

/-- `huron_open` (lines 260-414).  Parameters stand for the host
collaborators: `codecOk` is `TIFFIsCODECConfigured`, `hashOk` is the
success of `_openslide_tifflike_init_properties_and_hash` on the chosen
directory, `tOk` is the success of the initial `_openslide_tiffcache_get`,
and `tl` is the tifflike view used for the resolution property.  Returns
the outcome together with the heap event trace. -/
def huron_open (codecOk : Nat → Bool) (hashOk : Nat → Bool) (tOk : Bool)
    (tl : Nat → TifflikeDir) (dirs : List TiffDir) : OpenResult × List Event :=
  if tOk = false then
    (OpenResult.err OpenErr.tiffOpenFail, [Event.allocTc, Event.freeTc])
  else
    match scanDirs codecOk dirs 0 ⟨[], [], []⟩ with
    | Except.error (k, st) =>
        (OpenResult.err (OpenErr.scanFail k), Event.allocTc :: failCleanup st)
    | Except.ok st =>
        match (sortLevels st.levels).getLast? with
        | none => (OpenResult.crash, Event.allocTc :: st.events)
        | some top =>
          if hashOk top.1 = false then
            (OpenResult.err OpenErr.hashFail, Event.allocTc :: failCleanup st)
          else
            (OpenResult.ok ⟨sortLevels st.levels, st.assocs, top.1, huron_set_props tl 0⟩,
             Event.allocTc :: st.events)

/-- Outcome of `huron_detect` (lines 165-211). -/
inductive DetectResult where
  | accept
  | reject (msg : String)
deriving DecidableEq, Repr

/-- `huron_detect`: require a tifflike file, require directory 0 to be
tiled, then `return true`.  The maker/model checks at lines 184-210 sit
after that unconditional `return true` and are unreachable; the `maker`
and `model` parameters are retained (unused) to state that the outcome
does not depend on them. -/
def huron_detect (hasTl : Bool) (tiledAt0 : Bool) (maker model : Option String) :
    DetectResult :=
  if hasTl = false then DetectResult.reject "Not a TIFF file"
  else if tiledAt0 = false then DetectResult.reject "TIFF is not tiled"
  else DetectResult.accept

/-- Observable outcome of one `read_tile` call: the error returned (if
any), the buffer handed to `_openslide_cache_put` (if any), and the
sizes passed to `g_slice_alloc` / `g_slice_free1`. -/
structure ReadTileOut where
  result : Option String
  cacheInsert : Option (List Nat)
  allocs : List Nat
  frees : List Nat
deriving DecidableEq, Repr

/-- `read_tile` (lines 80-135), restricted to its cache/decode logic.
`cached` is what `_openslide_cache_get` returned; `decodeRes` is the
outcome of `_openslide_tiff_read_tile` into the fresh buffer; `clipRes`
is `_openslide_tiff_clip_tile` acting on the decoded buffer.  On a cache
hit the buffer is drawn with no decode and no allocation; on a miss a
`tw * th * 4`-byte buffer is allocated, freed again on decode or clip
failure, and handed to the cache only when both steps succeed. -/
def read_tile (tw th : Nat) (cached : Option (List Nat))
    (decodeRes : Except String (List Nat))
    (clipRes : List Nat → Except String (List Nat)) : ReadTileOut :=
  match cached with
  | some _ =>
      { result := none, cacheInsert := none, allocs := [], frees := [] }
  | none =>
    match decodeRes with
    | Except.error e =>
        { result := some e, cacheInsert := none,
          allocs := [tw * th * 4], frees := [tw * th * 4] }
    | Except.ok buf =>
      match clipRes buf with
      | Except.error e =>
          { result := some e, cacheInsert := none,
            allocs := [tw * th * 4], frees := [tw * th * 4] }
      | Except.ok buf2 =>
          { result := none, cacheInsert := some buf2,
            allocs := [tw * th * 4], frees := [] }

/-- Does an `OpenResult` report an error return (as opposed to success
or the out-of-bounds crash)? -/
def isErr : OpenResult → Bool
  | OpenResult.err _ => true
  | _ => false

/-- Number of occurrences of one heap event in a trace. -/
def countEv (e : Event) : List Event → Nat
  | [] => 0
  | f :: rest => (if f = e then 1 else 0) + countEv e rest

/-- The order `width_compare` establishes: descending full-resolution
image width. -/
def widthGe (a b : Nat × LevelGeom) : Prop := b.2.image_w ≤ a.2.image_w

/-- A directory on which every loop iteration jumps to FAIL, whatever
its position in the file. -/
def dirFails (codecOk : Nat → Bool) (d : TiffDir) : Prop :=
  ∀ i, ∃ k, classifyDir codecOk i d = DirAction.fail k

/-- Loop states whose event trace carries exactly the live allocations:
one level allocation per accumulated level beyond the frees, and no
tiffcache events (the cache is created and destroyed outside the loop). -/
def balancedState (st : ScanState) : Prop :=
  countEv Event.allocLevel st.events =
    st.levels.length + countEv Event.freeLevel st.events ∧
  countEv Event.allocTc st.events = 0 ∧
  countEv Event.freeTc st.events = 0

/-- The state an `Except`-valued loop leaves behind, on success or on
the way to FAIL. -/
def stepState (r : Except (FailKind × ScanState) ScanState) : ScanState :=
  match r with
  | Except.ok st => st
  | Except.error (_, st) => st

/-- A tifflike view with no readable resolution data. -/
def tlTrivial : Nat → TifflikeDir := fun _ => ⟨TagRead.noValue, TagRead.noValue⟩

/-- Geometry of a 1000-pixel-wide level. -/
def geomA : LevelGeom := ⟨1000, 800, 256, 256, 4, 4⟩

/-- Geometry of a 500-pixel-wide level. -/
def geomB : LevelGeom := ⟨500, 400, 256, 256, 2, 2⟩

/-- A well-formed tiled directory backing `geomA`. -/
def tiledDirA : TiffDir :=
  { subfiletype := some 0, tiled := true, imageWidth := some 1000,
    imageLength := some 800, rowsPerStrip := none, imageDescription := none,
    compression := some 1, levelInit := some geomA }

/-- A well-formed tiled directory backing `geomB`. -/
def tiledDirB : TiffDir :=
  { subfiletype := some 1, tiled := true, imageWidth := some 500,
    imageLength := some 400, rowsPerStrip := none, imageDescription := none,
    compression := some 1, levelInit := some geomB }

/-- A tiled directory whose `TIFFTAG_SUBFILETYPE` fetch fails. -/
def tiledNoSubfiletype : TiffDir :=
  { subfiletype := none, tiled := true, imageWidth := some 1000,
    imageLength := some 800, rowsPerStrip := none, imageDescription := none,
    compression := some 1, levelInit := some geomA }

/-- A tiled directory reporting compression scheme 34712 (JPEG 2000)
whose `TIFFTAG_SUBFILETYPE` fetch fails. -/
def tiledBadCompressionNoSubfiletype : TiffDir :=
  { subfiletype := none, tiled := true, imageWidth := some 500,
    imageLength := some 400, rowsPerStrip := none, imageDescription := none,
    compression := some 34712, levelInit := some geomB }

/-- A non-tiled directory whose subfiletype fetch fails and whose
image-width tag is also missing. -/
def flatNoSubfiletypeNoWidth : TiffDir :=
  { subfiletype := none, tiled := false, imageWidth := none,
    imageLength := none, rowsPerStrip := none, imageDescription := none,
    compression := none, levelInit := none }

/-- Tifflike view for the resolution counterexample: directory 0 declares
500 pixels per centimeter, directory 1 (the coarsest level) declares 250. -/
def tlTwoRes : Nat → TifflikeDir := fun i =>
  if i = 0 then ⟨TagRead.val RESUNIT_CENTIMETER, TagRead.val 500⟩
  else ⟨TagRead.val RESUNIT_CENTIMETER, TagRead.val 250⟩

/-! ### Helper lemmas: counting heap events -/

theorem countEv_append (e : Event) (l1 l2 : List Event) :
    countEv e (l1 ++ l2) = countEv e l1 + countEv e l2 := by
  induction l1 with
  | nil => simp [countEv]
  | cons f rest ih => simp [countEv, ih]; omega

theorem countEv_replicate (e f : Event) (n : Nat) :
    countEv e (List.replicate n f) = if f = e then n else 0 := by
  induction n with
  | zero => simp [countEv]
  | succ m ih => simp [List.replicate, countEv, ih]; split <;> omega

/-! ### Helper lemmas: the width sort -/

theorem width_compare_nonpos (a b : Nat × LevelGeom) :
    width_compare a b ≤ 0 ↔ widthGe a b := by
  unfold width_compare widthGe
  split
  · rename_i h
    exact iff_of_true (by norm_num) (Nat.le_of_lt h)
  · split
    · rename_i h h2
      exact iff_of_true (by norm_num) (Nat.le_of_eq h2.symm)
    · rename_i h h2
      exact iff_of_false (by norm_num) (by omega)

theorem mem_insertLevel {x z : Nat × LevelGeom} {l : List (Nat × LevelGeom)} :
    z ∈ insertLevel x l ↔ z = x ∨ z ∈ l := by
  induction l with
  | nil => simp [insertLevel]
  | cons y ys ih =>
    unfold insertLevel
    split
    · simp [List.mem_cons]
    · simp [List.mem_cons, ih]
      tauto

theorem sorted_insertLevel {x : Nat × LevelGeom} {l : List (Nat × LevelGeom)}
    (h : List.Sorted widthGe l) : List.Sorted widthGe (insertLevel x l) := by
  induction l with
  | nil => simp [insertLevel, List.sorted_singleton]
  | cons y ys ih =>
    rw [List.sorted_cons] at h
    obtain ⟨hy, hys⟩ := h
    unfold insertLevel
    split
    · rename_i hc
      have hxy : widthGe x y := (width_compare_nonpos x y).mp hc
      rw [List.sorted_cons]
      constructor
      · intro b hb
        rcases List.mem_cons.mp hb with rfl | hb
        · exact hxy
        · show b.2.image_w ≤ x.2.image_w
          exact Nat.le_trans (hy b hb) hxy
      · rw [List.sorted_cons]
        exact ⟨hy, hys⟩
    · rename_i hc
      have hyx : widthGe y x := by
        have h2 := (not_congr (width_compare_nonpos x y)).mp hc
        unfold widthGe at *
        omega
      rw [List.sorted_cons]
      refine ⟨?_, ih hys⟩
      intro b hb
      rcases mem_insertLevel.mp hb with rfl | hb
      · exact hyx
      · exact hy b hb

theorem sorted_sortLevels (l : List (Nat × LevelGeom)) :
    List.Sorted widthGe (sortLevels l) := by
  induction l with
  | nil => simp [sortLevels]
  | cons x xs ih => exact sorted_insertLevel ih

theorem insertLevel_perm (x : Nat × LevelGeom) (l : List (Nat × LevelGeom)) :
    List.Perm (insertLevel x l) (x :: l) := by
  induction l with
  | nil => simp [insertLevel]
  | cons y ys ih =>
    unfold insertLevel
    split
    · exact List.Perm.refl _
    · exact (List.Perm.cons y ih).trans (List.Perm.swap x y ys)

theorem sortLevels_perm (l : List (Nat × LevelGeom)) :
    List.Perm (sortLevels l) l := by
  induction l with
  | nil => exact List.Perm.refl _
  | cons x xs ih => exact (insertLevel_perm x (sortLevels xs)).trans (List.Perm.cons x ih)

theorem sorted_head_max {l : List (Nat × LevelGeom)} (h : List.Sorted widthGe l)
    {fst : Nat × LevelGeom} (hf : l.head? = some fst) :
    ∀ x ∈ l, x.2.image_w ≤ fst.2.image_w := by
  cases l with
  | nil => cases hf
  | cons a t =>
    have ha : a = fst := by simpa using hf
    subst ha
    intro x hx
    rcases List.mem_cons.mp hx with rfl | hx
    · exact Nat.le_refl _
    · exact (List.sorted_cons.mp h).1 x hx

theorem mem_of_getLastEq {α : Type} : ∀ {l : List α} {a : α}, l.getLast? = some a → a ∈ l
  | [], _, h => by cases h
  | [b], a, h => by
      simp [List.getLast?_singleton] at h
      simp [h]
  | b :: c :: t, a, h => by
      rw [List.getLast?_cons_cons] at h
      exact List.mem_cons_of_mem b (mem_of_getLastEq h)

theorem sorted_last_min : ∀ {l : List (Nat × LevelGeom)}, List.Sorted widthGe l →
    ∀ {lst : Nat × LevelGeom}, l.getLast? = some lst →
    ∀ x ∈ l, lst.2.image_w ≤ x.2.image_w := by
  intro l
  induction l with
  | nil =>
    intro _ lst h
    cases h
  | cons a t ih =>
    intro hs lst hl x hx
    rw [List.sorted_cons] at hs
    cases t with
    | nil =>
      simp [List.getLast?_singleton] at hl
      rcases List.mem_cons.mp hx with rfl | hx
      · rw [← hl]
      · cases hx
    | cons b t2 =>
      rw [List.getLast?_cons_cons] at hl
      rcases List.mem_cons.mp hx with rfl | hx
      · have hmem : lst ∈ b :: t2 := mem_of_getLastEq hl
        exact hs.1 lst hmem
      · exact ih hs.2 hl x hx

/-! ### Helper lemmas: the directory scan -/

theorem stepDir_error {codecOk : Nat → Bool} {i : Nat} {d : TiffDir} {k : FailKind}
    (st : ScanState) (hk : classifyDir codecOk i d = DirAction.fail k) :
    ∃ k2 st2, stepDir codecOk i d st = Except.error (k2, st2) := by
  unfold stepDir
  rw [hk]
  cases k <;> exact ⟨_, _, rfl⟩

theorem scanDirs_error_of_mem {codecOk : Nat → Bool} {d : TiffDir}
    (hfail : dirFails codecOk d) :
    ∀ (dirs : List TiffDir), d ∈ dirs → ∀ (i : Nat) (st : ScanState),
      ∃ k st2, scanDirs codecOk dirs i st = Except.error (k, st2) := by
  intro dirs
  induction dirs with
  | nil =>
    intro hmem
    cases hmem
  | cons e rest ih =>
    intro hmem i st
    rcases List.mem_cons.mp hmem with rfl | hmem
    · obtain ⟨k, hk⟩ := hfail i
      obtain ⟨k2, st2, hstep⟩ := stepDir_error st hk
      refine ⟨k2, st2, ?_⟩
      unfold scanDirs
      rw [hstep]
    · cases hstep : stepDir codecOk i e st with
      | error e2 =>
        obtain ⟨k0, st0⟩ := e2
        refine ⟨k0, st0, ?_⟩
        unfold scanDirs
        rw [hstep]
      | ok st2 =>
        obtain ⟨k, st3, h3⟩ := ih hmem (i + 1) st2
        refine ⟨k, st3, ?_⟩
        unfold scanDirs
        rw [hstep]
        exact h3

theorem stepDir_balanced (codecOk : Nat → Bool) (i : Nat) (d : TiffDir) (st : ScanState)
    (hb : balancedState st) : balancedState (stepState (stepDir codecOk i d st)) := by
  unfold stepDir
  cases classifyDir codecOk i d with
  | skip => exact hb
  | assoc name => exact hb
  | level g =>
    unfold balancedState stepState at *
    simp only [countEv_append] at *
    simp [countEv]
    omega
  | fail k =>
    cases k with
    | missingTag t => exact hb
    | badCompressionRead => exact hb
    | unsupportedCompression c => exact hb
    | levelInitFail =>
      unfold balancedState stepState at *
      simp only [countEv_append] at *
      simp [countEv]
      omega

theorem scanDirs_balanced (codecOk : Nat → Bool) :
    ∀ (dirs : List TiffDir) (i : Nat) (st : ScanState), balancedState st →
      balancedState (stepState (scanDirs codecOk dirs i st))
  | [], _, _, hb => hb
  | d :: rest, i, st, hb => by
    have hstepb := stepDir_balanced codecOk i d st hb
    unfold scanDirs
    cases hstep : stepDir codecOk i d st with
    | error e2 =>
      rw [hstep] at hstepb
      exact hstepb
    | ok st2 =>
      rw [hstep] at hstepb
      exact scanDirs_balanced codecOk rest (i + 1) st2 hstepb

theorem balancedState_init : balancedState ⟨[], [], []⟩ := by
  unfold balancedState
  simp [countEv]

/-! ### Helper lemmas: inverting `huron_open` -/

theorem huron_open_ok_inv {codecOk hashOk : Nat → Bool} {tOk : Bool}
    {tl : Nat → TifflikeDir} {dirs : List TiffDir} {r : OpenOk}
    (h : (huron_open codecOk hashOk tOk tl dirs).1 = OpenResult.ok r) :
    ∃ st top, scanDirs codecOk dirs 0 ⟨[], [], []⟩ = Except.ok st ∧
      (sortLevels st.levels).getLast? = some top ∧
      r.levels = sortLevels st.levels ∧ r.assocs = st.assocs ∧
      r.hashDir = top.1 ∧ r.mpp = huron_set_props tl 0 := by
  cases tOk with
  | false => simp [huron_open] at h
  | true =>
    cases hscan : scanDirs codecOk dirs 0 ⟨[], [], []⟩ with
    | error e2 =>
      obtain ⟨k, st⟩ := e2
      simp [huron_open, hscan] at h
    | ok st =>
      cases hlast : (sortLevels st.levels).getLast? with
      | none => simp [huron_open, hscan, hlast] at h
      | some top =>
        cases hh : hashOk top.1 with
        | false => simp [huron_open, hscan, hlast, hh] at h
        | true =>
          simp [huron_open, hscan, hlast, hh] at h
          subst h
          exact ⟨st, top, rfl, hlast, rfl, rfl, rfl, rfl⟩

theorem huron_open_err_no_leak {codecOk hashOk : Nat → Bool} {tOk : Bool}
    {tl : Nat → TifflikeDir} {dirs : List TiffDir} {e : OpenErr}
    (h : (huron_open codecOk hashOk tOk tl dirs).1 = OpenResult.err e) :
    countEv Event.allocLevel (huron_open codecOk hashOk tOk tl dirs).2 =
      countEv Event.freeLevel (huron_open codecOk hashOk tOk tl dirs).2 ∧
    countEv Event.allocTc (huron_open codecOk hashOk tOk tl dirs).2 =
      countEv Event.freeTc (huron_open codecOk hashOk tOk tl dirs).2 := by
  cases tOk with
  | false =>
    simp [huron_open, countEv]
  | true =>
    cases hscan : scanDirs codecOk dirs 0 ⟨[], [], []⟩ with
    | error e2 =>
      obtain ⟨k, st⟩ := e2
      have hbal := scanDirs_balanced codecOk dirs 0 ⟨[], [], []⟩ balancedState_init
      rw [hscan] at hbal
      simp only [stepState] at hbal
      unfold balancedState at hbal
      simp [huron_open, hscan, failCleanup, countEv, countEv_append, countEv_replicate]
      omega
    | ok st =>
      cases hlast : (sortLevels st.levels).getLast? with
      | none => simp [huron_open, hscan, hlast] at h
      | some top =>
        cases hh : hashOk top.1 with
        | false =>
          have hbal := scanDirs_balanced codecOk dirs 0 ⟨[], [], []⟩ balancedState_init
          rw [hscan] at hbal
          simp only [stepState] at hbal
          unfold balancedState at hbal
          simp [huron_open, hscan, hlast, hh, failCleanup, countEv, countEv_append,
            countEv_replicate]
          omega
        | true => simp [huron_open, hscan, hlast, hh] at h

/-! ### Claim theorems -/

/-- C1: the spec says a successful traversal with zero pyramid levels
must make `huron_open` fail.  The code has no zero-level check: with an
empty `level_array` it evaluates `level_array->pdata[level_array->len - 1]`,
an out-of-bounds read (undefined behavior), instead of setting an error.
Evaluating the embedded open on a tiled TIFF whose single directory lacks
the SUBFILETYPE tag (such a directory is skipped by the loop, so zero
levels accumulate, while detection still accepts the file because
directory 0 is tiled) yields the modelled out-of-bounds outcome
`OpenResult.crash`, not an error return. -/
theorem open_zero_levels_reaches_oob_read :
    (huron_open (fun _ => true) (fun _ => true) true tlTrivial
      [tiledNoSubfiletype]).1 = OpenResult.crash ∧
    isErr (huron_open (fun _ => true) (fun _ => true) true tlTrivial
      [tiledNoSubfiletype]).1 = false := by decide

/-- C2 counterexample: a tiled directory whose SUBFILETYPE tag cannot be
fetched is skipped by the loop, so the tiled check is not evaluated
first and a tiled directory is not unconditionally a pyramid-level
candidate. -/
theorem tiled_dir_missing_subfiletype_skipped :
    tiledNoSubfiletype.tiled = true ∧
    classifyDir (fun _ => true) 0 tiledNoSubfiletype = DirAction.skip := by decide

/-- C2 amended: every directory whose SUBFILETYPE tag is readable and
whose tiled flag is true is treated as a pyramid-level candidate (never
skipped, never an associated image), the subfiletype value itself is
ignored, and with a readable supported compression and successful
geometry initialization it becomes a level. -/
theorem classify_tiled_level_candidate (codecOk : Nat → Bool) (i : Nat) (d : TiffDir)
    (s : Nat) (hs : d.subfiletype = some s) (ht : d.tiled = true) :
    classifyDir codecOk i d ≠ DirAction.skip ∧
    (∀ name, classifyDir codecOk i d ≠ DirAction.assoc name) ∧
    (∀ s2, classifyDir codecOk i { d with subfiletype := some s2 } =
      classifyDir codecOk i d) ∧
    (∀ c g, d.compression = some c → codecOk c = true → d.levelInit = some g →
      classifyDir codecOk i d = DirAction.level g) := by
  have hred : classifyDir codecOk i d =
      (match d.compression with
       | none => DirAction.fail FailKind.badCompressionRead
       | some compression =>
         if codecOk compression = false then
           DirAction.fail (FailKind.unsupportedCompression compression)
         else
           match d.levelInit with
           | none => DirAction.fail FailKind.levelInitFail
           | some g => DirAction.level g) := by
    simp [classifyDir, hs, ht]
  refine ⟨?_, ?_, ?_, ?_⟩
  · rw [hred]
    cases hc : d.compression with
    | none => simp
    | some c =>
      cases hcf : codecOk c with
      | false => simp [hcf]
      | true =>
        cases hli : d.levelInit with
        | none => simp [hcf, hli]
        | some g => simp [hcf, hli]
  · intro name
    rw [hred]
    cases hc : d.compression with
    | none => simp
    | some c =>
      cases hcf : codecOk c with
      | false => simp [hcf]
      | true =>
        cases hli : d.levelInit with
        | none => simp [hcf, hli]
        | some g => simp [hcf, hli]
  · intro s2
    have hred2 : classifyDir codecOk i { d with subfiletype := some s2 } =
        (match d.compression with
         | none => DirAction.fail FailKind.badCompressionRead
         | some compression =>
           if codecOk compression = false then
             DirAction.fail (FailKind.unsupportedCompression compression)
           else
             match d.levelInit with
             | none => DirAction.fail FailKind.levelInitFail
             | some g => DirAction.level g) := by
      simp [classifyDir, ht]
    rw [hred2, hred]
  · intro c g hc hcf hli
    rw [hred, hc]
    simp [hcf, hli]

/-- C2 witness: a concrete well-formed tiled directory is classified as
a level. -/
theorem classify_tiled_level_candidate_witness :
    classifyDir (fun _ => true) 0 tiledDirA = DirAction.level geomA :=
  (classify_tiled_level_candidate (fun _ => true) 0 tiledDirA 0 rfl rfl).2.2.2
    1 geomA rfl rfl rfl

/-- C3 counterexample: `huron_open` calls `huron_set_props(osr, tl, 0)`,
so the MPP property is derived from directory 0 (the first directory in
file order), not from the representative (coarsest, last-after-sort)
directory.  Here directory 0 declares 500 pixels/cm (giving 20.0) while
the representative directory (index 1) declares 250 pixels/cm (which
would give 40.0); the open publishes 20.0. -/
theorem mpp_from_first_directory_counterexample :
    (huron_open (fun _ => true) (fun _ => true) true tlTwoRes [tiledDirA, tiledDirB]).1 =
      OpenResult.ok ⟨[(0, geomA), (1, geomB)], [], 1, some 20⟩ ∧
    huron_set_resolution_prop tlTwoRes 1 = some 40 ∧
    (20 : Rat) ≠ 40 := by
  refine ⟨?_, ?_, by norm_num⟩
  · rw [(by norm_num : (20 : Rat) = 10000 / 500)]
    rfl
  · rw [(by norm_num : (40 : Rat) = 10000 / 250)]
    rfl

/-- C3 amended: the MPP property is derived from the X-resolution tag of
directory 0, the first directory in file order (not the representative
coarsest directory); its unit semantics are as the claim states: a
declared unit of centimeters with a readable resolution publishes
10000 / resolution, an absent unit defaults to inches and publishes
nothing, and any other unit publishes nothing. -/
theorem mpp_property_semantics (codecOk hashOk : Nat → Bool) (tOk : Bool)
    (tl : Nat → TifflikeDir) (dirs : List TiffDir) (r : OpenOk)
    (h : (huron_open codecOk hashOk tOk tl dirs).1 = OpenResult.ok r) :
    r.mpp = huron_set_resolution_prop tl 0 ∧
    (∀ (tl2 : Nat → TifflikeDir) (dd : Nat) (res : Rat),
        (tl2 dd).resolutionUnit = TagRead.val RESUNIT_CENTIMETER →
        (tl2 dd).xResolution = TagRead.val res →
        huron_set_resolution_prop tl2 dd = some (10000 / res)) ∧
    (∀ (tl2 : Nat → TifflikeDir) (dd : Nat),
        (tl2 dd).resolutionUnit = TagRead.noValue →
        huron_set_resolution_prop tl2 dd = none) ∧
    (∀ (tl2 : Nat → TifflikeDir) (dd u : Nat),
        (tl2 dd).resolutionUnit = TagRead.val u → u ≠ RESUNIT_CENTIMETER →
        huron_set_resolution_prop tl2 dd = none) := by
  obtain ⟨st, top, hsc, hl, hlev, hassoc, hhash, hmpp⟩ := huron_open_ok_inv h
  refine ⟨hmpp, ?_, ?_, ?_⟩
  · intro tl2 dd res hu hx
    simp [huron_set_resolution_prop, hu, hx]
  · intro tl2 dd hu
    cases hx : (tl2 dd).xResolution with
    | noValue => simp [huron_set_resolution_prop, hu, hx]
    | readFail => simp [huron_set_resolution_prop, hu, hx]
    | val res => simp [huron_set_resolution_prop, hu, hx, RESUNIT_INCH, RESUNIT_CENTIMETER]
  · intro tl2 dd u hu hne
    cases hx : (tl2 dd).xResolution with
    | noValue => simp [huron_set_resolution_prop, hu, hx]
    | readFail => simp [huron_set_resolution_prop, hu, hx]
    | val res => simp [huron_set_resolution_prop, hu, hx, hne]

/-- The image object built by a successful open of `[tiledDirA, tiledDirB]`
with no readable resolution data. -/
def openOkAB : OpenOk := ⟨[(0, geomA), (1, geomB)], [], 1, none⟩

/-- C3 witness: the amended theorem applied to a concrete successful
open. -/
theorem mpp_property_semantics_witness :
    openOkAB.mpp = huron_set_resolution_prop tlTrivial 0 :=
  (mpp_property_semantics (fun _ => true) (fun _ => true) true tlTrivial
    [tiledDirA, tiledDirB] openOkAB (by decide)).1

/-- C4: detection accepts exactly the tifflike, tiled files; the
maker/model values (dead code after the unconditional `return true`)
never influence the outcome, so detection does not restrict to the
vendor's own scanner files. -/
theorem detect_accepts_iff_tiled (t til : Bool) (mk1 md1 mk2 md2 : Option String) :
    (huron_detect t til mk1 md1 = DetectResult.accept ↔ (t = true ∧ til = true)) ∧
    huron_detect t til mk1 md1 = huron_detect t til mk2 md2 := by
  cases t <;> cases til <;> simp [huron_detect]

/-- C5: after every successful open the level list is non-empty, sorted
by full-resolution image width in non-increasing order, and its first
element has maximal width.  (`g_ptr_array_sort` with `width_compare` is
a comparison sort; ties may land in either order, and any comparator-
correct output satisfies this statement.) -/
theorem open_levels_sorted_descending (codecOk hashOk : Nat → Bool) (tOk : Bool)
    (tl : Nat → TifflikeDir) (dirs : List TiffDir) (r : OpenOk)
    (h : (huron_open codecOk hashOk tOk tl dirs).1 = OpenResult.ok r) :
    r.levels ≠ [] ∧ List.Sorted widthGe r.levels ∧
    ∀ fst, r.levels.head? = some fst →
      ∀ x ∈ r.levels, x.2.image_w ≤ fst.2.image_w := by
  obtain ⟨st, top, hsc, hl, hlev, hassoc, hhash, hmpp⟩ := huron_open_ok_inv h
  rw [hlev]
  refine ⟨?_, sorted_sortLevels st.levels, ?_⟩
  · intro hnil
    rw [hnil] at hl
    simp at hl
  · intro fst hf x hx
    exact sorted_head_max (sorted_sortLevels st.levels) hf x hx

/-- C5 witness: the sortedness theorem applied to a concrete successful
open of two levels (file order already descending). -/
theorem open_levels_sorted_descending_witness :
    openOkAB.levels ≠ [] ∧ List.Sorted widthGe openOkAB.levels ∧
    ∀ fst, openOkAB.levels.head? = some fst →
      ∀ x ∈ openOkAB.levels, x.2.image_w ≤ fst.2.image_w :=
  open_levels_sorted_descending (fun _ => true) (fun _ => true) true tlTrivial
    [tiledDirA, tiledDirB] openOkAB (by decide)

/-- C6: after every successful open, the directory handed to
`_openslide_tifflike_init_properties_and_hash` is the directory of the
last level in the sorted list, and that level's width is minimal
(coarsest, lowest resolution). -/
theorem hash_directory_is_coarsest_level (codecOk hashOk : Nat → Bool) (tOk : Bool)
    (tl : Nat → TifflikeDir) (dirs : List TiffDir) (r : OpenOk)
    (h : (huron_open codecOk hashOk tOk tl dirs).1 = OpenResult.ok r) :
    r.levels ≠ [] ∧
    ∀ lst, r.levels.getLast? = some lst →
      r.hashDir = lst.1 ∧ ∀ x ∈ r.levels, lst.2.image_w ≤ x.2.image_w := by
  obtain ⟨st, top, hsc, hl, hlev, hassoc, hhash, hmpp⟩ := huron_open_ok_inv h
  rw [hlev, hhash]
  refine ⟨?_, ?_⟩
  · intro hnil
    rw [hnil] at hl
    simp at hl
  · intro lst hlst
    rw [hl] at hlst
    injection hlst with hteq
    subst hteq
    exact ⟨rfl, sorted_last_min (sorted_sortLevels st.levels) hl⟩

/-- C6 witness: the hash-directory theorem applied to a concrete
successful open; the hash directory is 1, the coarser of the two. -/
theorem hash_directory_is_coarsest_level_witness :
    openOkAB.levels ≠ [] ∧
    ∀ lst, openOkAB.levels.getLast? = some lst →
      openOkAB.hashDir = lst.1 ∧
      ∀ x ∈ openOkAB.levels, lst.2.image_w ≤ x.2.image_w :=
  hash_directory_is_coarsest_level (fun _ => true) (fun _ => true) true tlTrivial
    [tiledDirA, tiledDirB] openOkAB (by decide)

/-- C7 counterexample: the original claim says any tiled directory with
an undecodable compression scheme makes the entire open fail ("the
directory is not skipped").  But the SUBFILETYPE fetch at line 280
`continue`s before the compression tag is ever read: a tiled directory
reporting unsupported compression 34712 whose subfiletype fetch fails is
skipped, and the open succeeds. -/
theorem open_succeeds_despite_unsupported_compression :
    tiledBadCompressionNoSubfiletype.tiled = true ∧
    tiledBadCompressionNoSubfiletype.compression = some 34712 ∧
    (fun c => decide (c = 1)) 34712 = false ∧
    (huron_open (fun c => decide (c = 1)) (fun _ => true) true tlTrivial
      [tiledDirA, tiledBadCompressionNoSubfiletype]).1 =
      OpenResult.ok ⟨[(0, geomA)], [], 0, none⟩ := by decide

/-- C7 amended: if any tiled directory whose SUBFILETYPE tag is readable
has a compression tag that is unreadable or names a codec the host
cannot decode, the whole open fails with an error return (a tiled
directory whose subfiletype fetch fails is instead skipped), and on the
failure path the event trace balances: every allocated level struct is
freed and the tiffcache is destroyed. -/
theorem open_fails_on_unsupported_compression (codecOk hashOk : Nat → Bool) (tOk : Bool)
    (tl : Nat → TifflikeDir) (dirs : List TiffDir) (d : TiffDir) (s : Nat)
    (hd : d ∈ dirs) (hs : d.subfiletype = some s) (ht : d.tiled = true)
    (hc : d.compression = none ∨ ∃ c, d.compression = some c ∧ codecOk c = false) :
    isErr (huron_open codecOk hashOk tOk tl dirs).1 = true ∧
    countEv Event.allocLevel (huron_open codecOk hashOk tOk tl dirs).2 =
      countEv Event.freeLevel (huron_open codecOk hashOk tOk tl dirs).2 ∧
    countEv Event.allocTc (huron_open codecOk hashOk tOk tl dirs).2 =
      countEv Event.freeTc (huron_open codecOk hashOk tOk tl dirs).2 := by
  have herr : ∃ e, (huron_open codecOk hashOk tOk tl dirs).1 = OpenResult.err e := by
    cases tOk with
    | false => exact ⟨OpenErr.tiffOpenFail, by simp [huron_open]⟩
    | true =>
      have hfail : dirFails codecOk d := by
        intro i
        rcases hc with hnone | ⟨c, hcc, hcf⟩
        · exact ⟨FailKind.badCompressionRead, by simp [classifyDir, hs, ht, hnone]⟩
        · exact ⟨FailKind.unsupportedCompression c, by simp [classifyDir, hs, ht, hcc, hcf]⟩
      obtain ⟨k, st2, hscan⟩ := scanDirs_error_of_mem hfail dirs hd 0 ⟨[], [], []⟩
      exact ⟨OpenErr.scanFail k, by simp [huron_open, hscan]⟩
  obtain ⟨e, he⟩ := herr
  have hleak := huron_open_err_no_leak he
  refine ⟨?_, hleak.1, hleak.2⟩
  rw [he]
  rfl

/-- A tiled directory reporting compression scheme 34712 (JPEG 2000),
which the witness's host codec predicate cannot decode. -/
def tiledBadCompression : TiffDir :=
  { subfiletype := some 0, tiled := true, imageWidth := some 1000,
    imageLength := some 800, rowsPerStrip := none, imageDescription := none,
    compression := some 34712, levelInit := some geomA }

/-- C7 witness: opening a file whose tiled directory uses an unsupported
compression fails. -/
theorem open_fails_on_unsupported_compression_witness :
    isErr (huron_open (fun c => decide (c = 1)) (fun _ => true) true tlTrivial
      [tiledBadCompression]).1 = true :=
  (open_fails_on_unsupported_compression (fun c => decide (c = 1)) (fun _ => true) true
    tlTrivial [tiledBadCompression] tiledBadCompression 0 (by simp) rfl rfl
    (Or.inr ⟨34712, rfl, by decide⟩)).1

/-- C8: on a cache miss, `read_tile` allocates a buffer of
`tile_width * tile_height * 4` bytes; if decode fails the buffer is
freed, the call fails with the underlying error and nothing is inserted
into the cache; likewise if edge-clip fails; only when both decode and
clip succeed is the (fully decoded and clipped) buffer inserted. -/
theorem read_tile_miss_contract (tw th : Nat) (e : String) (buf buf2 : List Nat)
    (clip : List Nat → Except String (List Nat)) :
    read_tile tw th none (Except.error e) clip =
      { result := some e, cacheInsert := none,
        allocs := [tw * th * 4], frees := [tw * th * 4] } ∧
    (clip buf = Except.error e →
      read_tile tw th none (Except.ok buf) clip =
        { result := some e, cacheInsert := none,
          allocs := [tw * th * 4], frees := [tw * th * 4] }) ∧
    (clip buf = Except.ok buf2 →
      read_tile tw th none (Except.ok buf) clip =
        { result := none, cacheInsert := some buf2,
          allocs := [tw * th * 4], frees := [] }) := by
  refine ⟨rfl, ?_, ?_⟩
  · intro hclip
    simp [read_tile, hclip]
  · intro hclip
    simp [read_tile, hclip]

/-- C8 witness: a concrete cache miss with a failing decode frees the
24-byte buffer, returns the decode error and inserts nothing. -/
theorem read_tile_miss_contract_witness :
    read_tile 2 3 none (Except.error "decode failed") (fun b => Except.ok b) =
      { result := some "decode failed", cacheInsert := none,
        allocs := [24], frees := [24] } :=
  (read_tile_miss_contract 2 3 "decode failed" [] []
    (fun b => Except.ok b)).1

/-- C9: for a non-tiled directory that passed the earlier gates
(readable subfiletype, dimensions present, rows-per-strip = 1, nonzero
width/height), classification follows the specified precedence: no
description tag means a silent skip (no associated image, no error);
otherwise file position 2 (index 1) with default subfile-type gives
"thumbnail"; otherwise a trimmed description starting with "label"
gives "label"; otherwise one starting with "macro" gives "macro". -/
theorem classify_associated_precedence (codecOk : Nat → Bool) (i : Nat) (d : TiffDir)
    (s iw ihh : Nat)
    (hs : d.subfiletype = some s) (ht : d.tiled = false)
    (hw : d.imageWidth = some iw) (hlen : d.imageLength = some ihh)
    (hrows : d.rowsPerStrip = some 1) (hiw : iw ≠ 0) (hih : ihh ≠ 0) :
    (d.imageDescription = none → classifyDir codecOk i d = DirAction.skip) ∧
    (∀ desc, d.imageDescription = some desc → i = 1 → s = 0 →
        classifyDir codecOk i d = DirAction.assoc "thumbnail") ∧
    (∀ desc, d.imageDescription = some desc → ¬(i = 1 ∧ s = 0) →
        strStartsWith (g_strstrip desc) LABEL_DESCRIPTION = true →
        classifyDir codecOk i d = DirAction.assoc "label") ∧
    (∀ desc, d.imageDescription = some desc → ¬(i = 1 ∧ s = 0) →
        strStartsWith (g_strstrip desc) LABEL_DESCRIPTION = false →
        strStartsWith (g_strstrip desc) MACRO_DESCRIPTION = true →
        classifyDir codecOk i d = DirAction.assoc "macro") := by
  have hred : ∀ descOpt, d.imageDescription = descOpt → classifyDir codecOk i d =
      (match descOpt with
       | none => DirAction.skip
       | some rawDesc =>
         if i = 1 ∧ s = 0 then DirAction.assoc "thumbnail"
         else if strStartsWith (g_strstrip rawDesc) LABEL_DESCRIPTION then
           DirAction.assoc "label"
         else if strStartsWith (g_strstrip rawDesc) MACRO_DESCRIPTION then
           DirAction.assoc "macro"
         else DirAction.skip) := by
    intro descOpt hdesc
    cases descOpt with
    | none => simp [classifyDir, hs, ht, hw, hlen, hrows, hdesc, hiw, hih]
    | some rawDesc => simp [classifyDir, hs, ht, hw, hlen, hrows, hdesc, hiw, hih]
  refine ⟨?_, ?_, ?_, ?_⟩
  · intro hdesc
    rw [hred none hdesc]
  · intro desc hdesc hi hsz
    rw [hred (some desc) hdesc]
    simp [hi, hsz]
  · intro desc hdesc hnot hlab
    rw [hred (some desc) hdesc]
    simp [hnot, hlab]
  · intro desc hdesc hnot hlab hmac
    rw [hred (some desc) hdesc]
    simp [hnot, hlab, hmac]

/-- A non-tiled directory carrying a label description, sitting at a
file position other than 1. -/
def flatLabelDir : TiffDir :=
  { subfiletype := some 5, tiled := false, imageWidth := some 200,
    imageLength := some 100, rowsPerStrip := some 1,
    imageDescription := some " label - slide 7", compression := none,
    levelInit := none }

/-- C9 witness: the precedence theorem classifies a concrete label
directory as the "label" associated image. -/
theorem classify_associated_precedence_witness :
    classifyDir (fun _ => true) 3 flatLabelDir = DirAction.assoc "label" :=
  (classify_associated_precedence (fun _ => true) 3 flatLabelDir 5 200 100
    rfl rfl rfl rfl rfl (by decide) (by decide)).2.2.1
    " label - slide 7" rfl (by decide) (by decide)

/-- C10 counterexample: a non-tiled directory missing the image-width
tag does not abort the open when its subfiletype tag is also unreadable:
the subfiletype gate skips it first and the open succeeds. -/
theorem open_continues_past_flat_missing_width :
    flatNoSubfiletypeNoWidth.tiled = false ∧
    flatNoSubfiletypeNoWidth.imageWidth = none ∧
    (huron_open (fun _ => true) (fun _ => true) true tlTrivial
      [tiledDirA, flatNoSubfiletypeNoWidth]).1 =
      OpenResult.ok ⟨[(0, geomA)], [], 0, none⟩ := by decide

/-- C10 amended: every non-tiled directory whose SUBFILETYPE tag is
readable and that is missing any of image-width, image-length, or
rows-per-strip makes `huron_open` abort with a structural error. -/
theorem open_aborts_on_flat_missing_dims (codecOk hashOk : Nat → Bool) (tOk : Bool)
    (tl : Nat → TifflikeDir) (dirs : List TiffDir) (d : TiffDir) (s : Nat)
    (hd : d ∈ dirs) (hs : d.subfiletype = some s) (ht : d.tiled = false)
    (hmiss : d.imageWidth = none ∨ d.imageLength = none ∨ d.rowsPerStrip = none) :
    isErr (huron_open codecOk hashOk tOk tl dirs).1 = true := by
  cases tOk with
  | false => simp [huron_open, isErr]
  | true =>
    have hfail : dirFails codecOk d := by
      intro i
      rcases hmiss with hm | hm | hm
      · exact ⟨FailKind.missingTag TIFFTAG_IMAGEWIDTH,
          by simp [classifyDir, hs, ht, hm]⟩
      · cases hwid : d.imageWidth with
        | none => exact ⟨FailKind.missingTag TIFFTAG_IMAGEWIDTH,
            by simp [classifyDir, hs, ht, hwid]⟩
        | some iw => exact ⟨FailKind.missingTag TIFFTAG_IMAGELENGTH,
            by simp [classifyDir, hs, ht, hwid, hm]⟩
      · cases hwid : d.imageWidth with
        | none => exact ⟨FailKind.missingTag TIFFTAG_IMAGEWIDTH,
            by simp [classifyDir, hs, ht, hwid]⟩
        | some iw =>
          cases hlen : d.imageLength with
          | none => exact ⟨FailKind.missingTag TIFFTAG_IMAGELENGTH,
              by simp [classifyDir, hs, ht, hwid, hlen]⟩
          | some ihh => exact ⟨FailKind.missingTag TIFFTAG_ROWSPERSTRIP,
              by simp [classifyDir, hs, ht, hwid, hlen, hm]⟩
    obtain ⟨k, st2, hscan⟩ := scanDirs_error_of_mem hfail dirs hd 0 ⟨[], [], []⟩
    simp [huron_open, hscan, isErr]

/-- A non-tiled directory with readable subfiletype but no
rows-per-strip tag. -/
def flatMissingRows : TiffDir :=
  { subfiletype := some 0, tiled := false, imageWidth := some 10,
    imageLength := some 20, rowsPerStrip := none,
    imageDescription := some "label - x", compression := none,
    levelInit := none }

/-- C10 witness: a concrete flat directory missing rows-per-strip
aborts the open. -/
theorem open_aborts_on_flat_missing_dims_witness :
    isErr (huron_open (fun _ => true) (fun _ => true) true tlTrivial
      [flatMissingRows]).1 = true :=
  open_aborts_on_flat_missing_dims (fun _ => true) (fun _ => true) true tlTrivial
    [flatMissingRows] flatMissingRows 0 (by simp) rfl rfl (Or.inr (Or.inr rfl))

end Huron
